import Mathlib

/-!
Shallow embedding of `src/amd_zen_ucode.py` (AMD Zen microcode layout plugin).

The host platform (Binary Ninja) is modelled as an explicit state `BV`:
a type registry (name-keyed association list), per-address data-variable /
symbol / comment stores, an event trace recording the host calls made by the
engine, a message log, and the end address of the image (`bv.end` in the
source).  Host capabilities that the source probes dynamically (enumeration
construction, `Type.int` signatures, `Type.structure` availability,
`update_analysis`) are modelled as boolean fields of `Caps`, following the
spec's abstraction of the probing shims into single capabilities.
Exceptions are modelled as the `Option String` component of each operation's
result; side effects committed before a raise persist in the returned state,
exactly as in Python.
-/

namespace AmdZen

/-- Layout constants (source lines 23-36). -/
def PATCH_SIZE : Nat := 0x3820

def HDR_OFF : Nat := 0x0000

def HDR_SIZE : Nat := 0x0020

def RANDOM_OFF : Nat := 0x0020

def RANDOM_SIZE : Nat := 0x0300

def UCREG_OFF : Nat := 0x0320

def UCREG_SIZE : Nat := 0x3500

def BODY_SIZE : Nat := 0x3800

def UOP_SIZE : Nat := 4

def UOP_COUNT : Nat := UCREG_SIZE / UOP_SIZE

/-- Type names to define (source lines 41-47). -/
def T_HDR : String := "AMD_MC_Header"

def T_RAND : String := "AMD_MC_RandomBlocks"

def T_PATCH : String := "AMD_MC_Patch"

def T_ENUM : String := "AMD_Zen_Opcode"

def T_UOP : String := "AMD_Zen_MicroOp"

def T_REG : String := "AMD_Zen_MicrocodeRegion"

/-- Opcode enumeration values, in source (insertion) order (source lines 52-62). -/
def ZEN_OPCODE_ENUM : List (String × Nat) :=
  [("AMD_ZEN_UOP_UNKNOWN", 0x00),
   ("AMD_ZEN_TYPE5_READ", 0xDE),
   ("AMD_ZEN_TYPE7_ALU_OR", 0xBE),
   ("AMD_ZEN_TYPE3_WRITE", 0xA0),
   ("AMD_ZEN_TYPE_REG_NOP", 0xFF),
   ("AMD_ZEN_UOP_21", 0x21),
   ("AMD_ZEN_UOP_41", 0x41),
   ("AMD_ZEN_UOP_5F", 0x5F)]

/-- Host types as the engine constructs them: unsigned integers of a byte
width, enumerations, fixed-count arrays, named type references
(`Type.named_type_from_type`), and structures with an ordered field list and
a packed flag. -/
inductive BNType where
  | uintT (width : Nat)
  | enumT (values : List (String × Nat)) (width : Nat)
  | arrayT (elem : BNType) (count : Nat)
  | namedT (name : String) (underlying : BNType)
  | structT (packed : Bool) (fields : List (String × BNType))
deriving Repr

mutual

/-- Byte size of a constructed type.  All structures this module registers
are packed, so a structure's size is the sum of its field sizes (no implicit
padding); the single ad hoc structure has one array field, for which packed
and natural layout coincide. -/
def BNType.size : BNType → Nat
  | .uintT w => w
  | .enumT _ w => w
  | .arrayT t n => n * BNType.size t
  | .namedT _ t => BNType.size t
  | .structT _ fields => fieldsSize fields

/-- Sum of the byte sizes of a structure's fields. -/
def fieldsSize : List (String × BNType) → Nat
  | [] => 0
  | (_, t) :: rest => BNType.size t + fieldsSize rest

end

/-- Host capabilities probed by the source's compatibility shims. -/
structure Caps where
  enumOk : Bool
  intOk : Bool
  structOk : Bool
  analysisOk : Bool
deriving Repr, DecidableEq

/-- All host capabilities available. -/
def goodCaps : Caps := ⟨true, true, true, true⟩

/-- Enumeration construction unsupported (`_make_enum_type_best_effort` returns None). -/
def capsNoEnum : Caps := ⟨false, true, true, true⟩

/-- Structure construction unavailable (`_type_structure` raises). -/
def capsNoStruct : Caps := ⟨true, true, false, true⟩

/-- The host's `update_analysis` raises. -/
def capsNoAnalysis : Caps := ⟨true, true, true, false⟩

/-- Log severities of `log_info` / `log_warn` / `log_error`. -/
inductive LogLevel where
  | info
  | warn
  | error
deriving Repr, DecidableEq, BEq

/-- One emitted log message. -/
structure LogMsg where
  level : LogLevel
  text : String
deriving Repr, DecidableEq, BEq

/-- Host calls the engine performs against per-address variable storage and
the analysis pass, recorded in order. -/
inductive Event where
  | undefineVar (addr : Nat)
  | defineDataVar (addr : Nat) (ty : BNType)
  | defineSymbolAt (addr : Nat) (name : String)
  | setCommentAt (addr : Nat) (text : String)
  | updateAnalysis
deriving Repr

/-- The modelled BinaryView: type registry (most recent definition first),
per-address data variables, symbols and comments, the host-call trace, the
log, and the end address of the image (`bv.end`). -/
structure BV where
  registry : List (String × BNType)
  dataVars : Nat → Option BNType
  symbols : Nat → Option String
  comments : Nat → Option String
  events : List Event
  log : List LogMsg
  fileEnd : Nat

/-- A BinaryView with nothing defined and image end address `fe`. -/
def freshBV (fe : Nat) : BV :=
  { registry := []
    dataVars := fun _ => none
    symbols := fun _ => none
    comments := fun _ => none
    events := []
    log := []
    fileEnd := fe }

/-- Pointwise update of an address-keyed store. -/
def upd {α : Type} (f : Nat → Option α) (a : Nat) (v : Option α) : Nat → Option α :=
  fun x => if x = a then v else f x

/-- The host's `bv.get_type_by_name`. -/
def lookupType (bv : BV) (name : String) : Option BNType :=
  bv.registry.lookup name

/-- The host's `bv.define_user_type` (a later definition of the same name shadows). -/
def defineUserType (bv : BV) (name : String) (t : BNType) : BV :=
  { bv with registry := (name, t) :: bv.registry }

/-- Append a log message. -/
def logAt (bv : BV) (lvl : LogLevel) (text : String) : BV :=
  { bv with log := bv.log ++ [⟨lvl, text⟩] }

/-- The source's `log_info`. -/
def logInfo (bv : BV) (text : String) : BV := logAt bv .info text

/-- The source's `log_warn`. -/
def logWarn (bv : BV) (text : String) : BV := logAt bv .warn text

/-- The source's `log_error`. -/
def logError (bv : BV) (text : String) : BV := logAt bv .error text

/-- Record a host call in the trace. -/
def recordEvent (bv : BV) (e : Event) : BV :=
  { bv with events := bv.events ++ [e] }

/-- Lowercase hexadecimal rendering used by the source's `0x{n:x}` format. -/
def hexStr (n : Nat) : String := String.mk (Nat.toDigits 16 n)

/-- The source's `_uint(width)`: construct an unsigned integer type, raising
when no `Type.int` call shape works (source lines 70-91). -/
def uintE (c : Caps) (width : Nat) : Except String BNType :=
  if c.intOk then .ok (.uintT width)
  else .error ("Cannot construct Type.int(" ++ toString width ++ ")")

/-- The source's `u8()`. -/
def u8E (c : Caps) : Except String BNType := uintE c 1

/-- The source's `u16()`. -/
def u16E (c : Caps) : Except String BNType := uintE c 2

/-- The source's `u32()`. -/
def u32E (c : Caps) : Except String BNType := uintE c 4

/-- The source's `_type_structure(sb)`: turn a builder (packed flag plus
ordered field list) into a structure type, raising when neither
`Type.structure` nor `Type.structure_type` exists (source lines 97-106). -/
def typeStructure (c : Caps) (packed : Bool) (fields : List (String × BNType)) :
    Except String BNType :=
  if c.structOk then .ok (.structT packed fields)
  else .error "No Type.structure / Type.structure_type available on this BN build"

/-- The source's `_make_enum_type_best_effort()`: a width-1 enumeration over
`ZEN_OPCODE_ENUM` when the host supports enum construction, `none` otherwise
(source lines 111-173). -/
def makeEnumTypeBestEffort (c : Caps) : Option BNType :=
  if c.enumOk then some (.enumT ZEN_OPCODE_ENUM 1) else none

/-- The source's `_safe_undef_var`: remove any data variable at `addr`,
tolerating absence (source lines 178-182). -/
def safeUndefVar (bv : BV) (addr : Nat) : BV :=
  let bv := recordEvent bv (Event.undefineVar addr)
  { bv with dataVars := upd bv.dataVars addr none }

/-- The source's `_define_var`: clear-then-define a data variable at `addr`,
then attach the symbol and the comment when given (source lines 184-190). -/
def defineVar (bv : BV) (addr : Nat) (t : BNType)
    (sym : Option String) (com : Option String) : BV :=
  let bv := safeUndefVar bv addr
  let bv := recordEvent bv (Event.defineDataVar addr t)
  let bv := { bv with dataVars := upd bv.dataVars addr (some t) }
  let bv :=
    match sym with
    | none => bv
    | some s =>
      let bv := recordEvent bv (Event.defineSymbolAt addr s)
      { bv with symbols := upd bv.symbols addr (some s) }
  match com with
  | none => bv
  | some s =>
    let bv := recordEvent bv (Event.setCommentAt addr s)
    { bv with comments := upd bv.comments addr (some s) }

/-- The source's `_check_size`: warn when fewer than `PATCH_SIZE` bytes are
readable from `base` (source lines 192-198).  `bv.read(base, n)` returns the
bytes between `base` and the image end, so it yields
`min n (fileEnd - base)` bytes. -/
def checkSize (bv : BV) (base : Nat) : BV :=
  let got := min PATCH_SIZE (bv.fileEnd - base)
  if got < PATCH_SIZE then
    logWarn bv ("Only " ++ toString got ++ " bytes available from 0x" ++ hexStr base ++
      ", expected 0x" ++ hexStr PATCH_SIZE ++ ". Layout may be partial.")
  else bv

/-- The second half of `_ensure_types` (source lines 219-281): construct and
register, in dependency order, the micro-op record, the microcode region,
the header, the random blocks, and the patch container, with the given type
for the micro-op's opcode field.  A raise from `_uint` or `_type_structure`
propagates, keeping the registrations committed before it. -/
def ensureStructs (c : Caps) (bv : BV) (opcodeFieldT : BNType) : BV × Option String :=
  match (do
      let b1 ← u8E c
      let imm16 ← u16E c
      typeStructure c true [("opcode", opcodeFieldT), ("b1", b1), ("imm16", imm16)]) with
  | .error e => (bv, some e)
  | .ok uopT =>
  let bv := defineUserType bv T_UOP uopT
  let uopNamed := BNType.namedT T_UOP uopT
  match typeStructure c true [("uops", .arrayT uopNamed UOP_COUNT)] with
  | .error e => (bv, some e)
  | .ok regT =>
  let bv := defineUserType bv T_REG regT
  match (do
      let fYear ← u16E c
      let fDay ← u8E c
      let fMonth ← u8E c
      let fUpdateRevision ← u32E c
      let fLoaderID ← u16E c
      let fDataSize ← u8E c
      let fInitializationFlag ← u8E c
      let fDataChecksum ← u32E c
      let fNbVen ← u16E c
      let fNbDev ← u16E c
      let fSbVen ← u16E c
      let fSbDev ← u16E c
      let fProcessorSignature ← u16E c
      let fNbRev ← u8E c
      let fSbRev ← u8E c
      let fBiosApiRevision ← u8E c
      let fLoadControl ← u8E c
      let fReserved1E ← u8E c
      let fReserved1F ← u8E c
      typeStructure c true
        [("Year", fYear), ("Day", fDay), ("Month", fMonth),
         ("UpdateRevision", fUpdateRevision), ("LoaderID", fLoaderID),
         ("DataSize", fDataSize), ("InitializationFlag", fInitializationFlag),
         ("DataChecksum", fDataChecksum),
         ("NorthBridgeVEN_ID", fNbVen), ("NorthBridgeDEV_ID", fNbDev),
         ("SouthBridgeVEN_ID", fSbVen), ("SouthBridgeDEV_ID", fSbDev),
         ("ProcessorSignature", fProcessorSignature),
         ("NorthBridgeREV_ID", fNbRev), ("SouthBridgeREV_ID", fSbRev),
         ("BiosApiRevision", fBiosApiRevision), ("LoadControl", fLoadControl),
         ("Reserved_1E", fReserved1E), ("Reserved_1F", fReserved1F)]) with
  | .error e => (bv, some e)
  | .ok hdrT =>
  let bv := defineUserType bv T_HDR hdrT
  let hdrNamed := BNType.namedT T_HDR hdrT
  match (do
      let b1 ← u8E c
      let b2 ← u8E c
      let b3 ← u8E c
      typeStructure c true
        [("block1", .arrayT b1 0x100), ("block2", .arrayT b2 0x100),
         ("block3", .arrayT b3 0x100)]) with
  | .error e => (bv, some e)
  | .ok randT =>
  let bv := defineUserType bv T_RAND randT
  match (do
      let b ← u8E c
      typeStructure c true [("hdr", hdrNamed), ("body", .arrayT b 0x3800)]) with
  | .error e => (bv, some e)
  | .ok patchT =>
  let bv := defineUserType bv T_PATCH patchT
  (logInfo bv "AMD microcode structs defined in this database.", none)

/-- The body of `_ensure_types` past its already-defined check (source lines
208-281): registers the opcode enum when the host can build one (falling
back to a plain `uint8_t` opcode field with a warning) and then every
structural type. -/
def ensureTypesFull (c : Caps) (bv : BV) : BV × Option String :=
  match makeEnumTypeBestEffort c with
  | some enumT0 =>
    let bv := defineUserType bv T_ENUM enumT0
    let bv := logInfo bv "AMD_Zen_Opcode enum created (u8)."
    ensureStructs c bv (.namedT T_ENUM enumT0)
  | none =>
    match u8E c with
    | .error e => (bv, some e)
    | .ok t =>
      let bv := logWarn bv
        "Could not create AMD_Zen_Opcode enum on this BN build; opcode will be uint8."
      ensureStructs c bv t

/-- The source's `_ensure_types` (source lines 203-281): a no-op when the
container type `AMD_MC_Patch` already exists by name; otherwise a full
construction pass. -/
def ensureTypes (c : Caps) (bv : BV) : BV × Option String :=
  if (lookupType bv T_PATCH).isSome then (bv, none)
  else ensureTypesFull c bv

/-- Region Sizing Algorithm (source lines 310-313): clamp the bytes available
at the microcode region's start to the nominal region size, truncate down to
a whole number of 4-byte records, and return `(usable bytes, record count)`. -/
def ucodeSizing (available : Nat) : Nat × Nat :=
  let s0 := min available UCREG_SIZE
  let s := s0 - s0 % UOP_SIZE
  (s, s / UOP_SIZE)

/-- The ad hoc truncated-region structure produced by
`bv.parse_type_string("struct AMD_Zen_MicrocodeRegion_auto ...")` for a given
record count: one array field of `count` `AMD_Zen_MicroOp` records.  The
parsed structure's name is discarded by the source (`auto_t, _ = ...`) and
the type is never registered. -/
def autoRegionTy (uopT : BNType) (count : Nat) : BNType :=
  .structT false [("uops", .arrayT (.namedT T_UOP uopT) count)]

/-- The source's `bv.parse_type_string` call on the ad hoc region string
(source lines 319-320): resolves the element type name `AMD_Zen_MicroOp` in
the registry and yields the one-field structure. -/
def parseAutoRegionType (bv : BV) (count : Nat) : Except String BNType :=
  match lookupType bv T_UOP with
  | some uopT => .ok (autoRegionTy uopT count)
  | none => .error "parse_type_string: unknown type name AMD_Zen_MicroOp"

/-- The source's guarded `bv.update_analysis()` call (source lines 324-327):
the request always reaches the host; when the host raises, the raise is
reported in the second component (and swallowed by the caller's `except`). -/
def updateAnalysisCall (c : Caps) (bv : BV) : BV × Option String :=
  let bv := recordEvent bv Event.updateAnalysis
  if c.analysisOk then (bv, none) else (bv, some "update_analysis failed")

/-- Body of `apply_layout_at` after `_ensure_types` (source lines 288-329):
short-read check, type lookups with a fatal generic error when any is
missing, clear-then-define of the container / header / random-blocks
variables, the region sizing and the fixed-or-ad-hoc microcode region
definition, the analysis request, and the final info message. -/
def applyBody (c : Caps) (bv : BV) (base : Nat) : BV × Option String :=
  let bv := checkSize bv base
  match lookupType bv T_PATCH, lookupType bv T_HDR,
        lookupType bv T_RAND, lookupType bv T_REG with
  | some patchT, some hdrT, some randT, some regT =>
    let bv := defineVar bv (base + 0x0) patchT
      (some "amd_mc_patch") (some "AMD microcode patch container")
    let bv := defineVar bv (base + HDR_OFF) hdrT (some "amd_mc_header") none
    let bv := defineVar bv (base + RANDOM_OFF) randT (some "amd_mc_random_blocks") none
    let regBase := base + UCREG_OFF
    if bv.fileEnd ≤ regBase then
      (logWarn bv "No bytes available for ucode region at this base.", none)
    else
      let available := bv.fileEnd - regBase
      let sizing := ucodeSizing available
      let defined :=
        if sizing.1 = UCREG_SIZE then
          Except.ok (defineVar bv regBase regT (some "amd_ucode_region") none)
        else
          match parseAutoRegionType bv sizing.2 with
          | .error e => Except.error e
          | .ok autoT =>
            Except.ok (defineVar bv regBase autoT (some "amd_ucode_region") none)
      match defined with
      | .error e => (bv, some e)
      | .ok bv =>
        let bv := (updateAnalysisCall c bv).1
        (logInfo bv ("Applied AMD microcode layout at 0x" ++ hexStr base ++
          " (uops=0x" ++ hexStr sizing.2 ++ ")."), none)
  | _, _, _, _ =>
    (logError bv "Types missing after definition; type creation failed on this build.",
     none)

/-- The source's `apply_layout_at(bv, base)` (source lines 286-329).  A raise
inside `_ensure_types` propagates uncaught, with the state mutations
committed before it preserved. -/
def applyLayoutAt (c : Caps) (bv : BV) (base : Nat) : BV × Option String :=
  match ensureTypes c bv with
  | (bv1, some e) => (bv1, some e)
  | (bv1, none) => applyBody c bv1 base

/-! Concrete values of the registered types, for use in theorem statements.
Each is proved (definitionally) to be what `ensureTypes` registers. -/

/-- The opcode enumeration type. -/
def enumTy : BNType := .enumT ZEN_OPCODE_ENUM 1

/-- The micro-op record type when the enum was constructible. -/
def uopTyE : BNType :=
  .structT true [("opcode", .namedT T_ENUM enumTy), ("b1", .uintT 1), ("imm16", .uintT 2)]

/-- The micro-op record type under the enum-unsupported fallback. -/
def uopTyPlain : BNType :=
  .structT true [("opcode", .uintT 1), ("b1", .uintT 1), ("imm16", .uintT 2)]

/-- The fixed microcode region type (0xD40 records). -/
def regTyE : BNType :=
  .structT true [("uops", .arrayT (.namedT T_UOP uopTyE) UOP_COUNT)]

/-- The header type. -/
def hdrTyE : BNType :=
  .structT true
    [("Year", .uintT 2), ("Day", .uintT 1), ("Month", .uintT 1),
     ("UpdateRevision", .uintT 4), ("LoaderID", .uintT 2),
     ("DataSize", .uintT 1), ("InitializationFlag", .uintT 1),
     ("DataChecksum", .uintT 4),
     ("NorthBridgeVEN_ID", .uintT 2), ("NorthBridgeDEV_ID", .uintT 2),
     ("SouthBridgeVEN_ID", .uintT 2), ("SouthBridgeDEV_ID", .uintT 2),
     ("ProcessorSignature", .uintT 2),
     ("NorthBridgeREV_ID", .uintT 1), ("SouthBridgeREV_ID", .uintT 1),
     ("BiosApiRevision", .uintT 1), ("LoadControl", .uintT 1),
     ("Reserved_1E", .uintT 1), ("Reserved_1F", .uintT 1)]

/-- The random-blocks type. -/
def randTyE : BNType :=
  .structT true
    [("block1", .arrayT (.uintT 1) 0x100), ("block2", .arrayT (.uintT 1) 0x100),
     ("block3", .arrayT (.uintT 1) 0x100)]

/-- The patch container type. -/
def patchTyE : BNType :=
  .structT true [("hdr", .namedT T_HDR hdrTyE), ("body", .arrayT (.uintT 1) 0x3800)]

/-- The registry contents after a full registration pass with the enum
available, most recent first. -/
def regList : List (String × BNType) :=
  [(T_PATCH, patchTyE), (T_RAND, randTyE), (T_HDR, hdrTyE),
   (T_REG, regTyE), (T_UOP, uopTyE), (T_ENUM, enumTy)]

/-! Observers over the event trace and the log, used to state claims. -/

/-- Does this event define a data variable (at any address)? -/
def isDefineData : Event → Bool
  | .defineDataVar _ _ => true
  | _ => false

/-- Is this event the analysis re-run request? -/
def isUpdateAnalysis : Event → Bool
  | .updateAnalysis => true
  | _ => false

/-- The type this event defines at `addr`, if it is such a definition. -/
def defineTypeAt (addr : Nat) : Event → Option BNType
  | .defineDataVar a t => if a = addr then some t else none
  | _ => none

/-- The type of the last data-variable definition at `addr` in the trace. -/
def lastDefineTypeAt (addr : Nat) (evs : List Event) : Option BNType :=
  (evs.filterMap (defineTypeAt addr)).getLast?

/-- Was a data variable defined at `addr` somewhere in the trace? -/
def definesDataAt (addr : Nat) (evs : List Event) : Bool :=
  evs.any fun e => (defineTypeAt addr e).isSome

/-- Number of error-severity messages in the log. -/
def errorCount (bv : BV) : Nat :=
  (bv.log.filter fun m => m.level == LogLevel.error).length

/-- Is a warning with exactly this text in the log? -/
def hasWarn (bv : BV) (text : String) : Bool :=
  bv.log.any fun m => m.level == LogLevel.warn && m.text == text

/-- Whether `needle` occurs as a contiguous run inside `hay` (character
lists). -/
def listPrefixOf : List Char → List Char → Bool
  | [], _ => true
  | _ :: _, [] => false
  | a :: as, b :: bs => a == b && listPrefixOf as bs

/-- Contiguous-substring occurrence test for character lists. -/
def listInListOf (needle : List Char) : List Char → Bool
  | [] => needle.isEmpty
  | b :: bs => listPrefixOf needle (b :: bs) || listInListOf needle bs

/-- Contiguous-substring occurrence test for strings. -/
def strContainsSub (hay needle : String) : Bool :=
  listInListOf needle.data hay.data

/-- Is this type a packed structure? -/
def isPackedStruct : BNType → Bool
  | .structT p _ => p
  | _ => false

/-! ### Characterization of the apply body when the registry is complete -/

/-- What `applyBody` does, written out with the concrete registered types,
when the registry holds the standard definitions (`regList`) and the engine's
capabilities include structure and integer construction.  Proved equal to
`applyBody` below; every region claim is settled through this form. -/
def applyModel (bv : BV) (base : Nat) : BV :=
  let bv := checkSize bv base
  let bv := defineVar bv (base + 0x0) patchTyE
    (some "amd_mc_patch") (some "AMD microcode patch container")
  let bv := defineVar bv (base + HDR_OFF) hdrTyE (some "amd_mc_header") none
  let bv := defineVar bv (base + RANDOM_OFF) randTyE (some "amd_mc_random_blocks") none
  let regBase := base + UCREG_OFF
  if bv.fileEnd ≤ regBase then
    logWarn bv "No bytes available for ucode region at this base."
  else
    let sizing := ucodeSizing (bv.fileEnd - regBase)
    let bv :=
      if sizing.1 = UCREG_SIZE then
        defineVar bv regBase regTyE (some "amd_ucode_region") none
      else
        defineVar bv regBase (autoRegionTy uopTyE sizing.2) (some "amd_ucode_region") none
    let bv := recordEvent bv Event.updateAnalysis
    logInfo bv ("Applied AMD microcode layout at 0x" ++ hexStr base ++
      " (uops=0x" ++ hexStr sizing.2 ++ ").")

/-- The log produced by a full registration pass with the enum available. -/
def ensureLogs : List LogMsg :=
  [⟨.info, "AMD_Zen_Opcode enum created (u8)."⟩,
   ⟨.info, "AMD microcode structs defined in this database."⟩]

/-- The state after `_ensure_types` on a fresh view with all capabilities. -/
def ensuredBV (fe : Nat) : BV :=
  { freshBV fe with registry := regList, log := ensureLogs }

/-- Conclusion of claim C4 at `(fe, base)`: applying at a base whose
microcode-region start is at or beyond the image end still performs exactly
the container / header / random-blocks definitions, defines nothing at the
microcode-region address, warns, and emits no error. -/
def c4Conclusion (fe base : Nat) : Prop :=
  (applyLayoutAt goodCaps (freshBV fe) base).2 = none ∧
  (applyLayoutAt goodCaps (freshBV fe) base).1.events =
    [Event.undefineVar (base + 0x0),
     Event.defineDataVar (base + 0x0) patchTyE,
     Event.defineSymbolAt (base + 0x0) "amd_mc_patch",
     Event.setCommentAt (base + 0x0) "AMD microcode patch container",
     Event.undefineVar (base + HDR_OFF),
     Event.defineDataVar (base + HDR_OFF) hdrTyE,
     Event.defineSymbolAt (base + HDR_OFF) "amd_mc_header",
     Event.undefineVar (base + RANDOM_OFF),
     Event.defineDataVar (base + RANDOM_OFF) randTyE,
     Event.defineSymbolAt (base + RANDOM_OFF) "amd_mc_random_blocks"] ∧
  definesDataAt (base + UCREG_OFF) (applyLayoutAt goodCaps (freshBV fe) base).1.events =
    false ∧
  hasWarn (applyLayoutAt goodCaps (freshBV fe) base).1
    "No bytes available for ucode region at this base." = true ∧
  errorCount (applyLayoutAt goodCaps (freshBV fe) base).1 = 0

/-- Conclusion of claim C10 at `(fe, base)`: with 1-3 bytes available the
sizing yields zero usable bytes and zero records, yet the call still takes
the ad hoc branch, defines a microcode-region variable whose record array
has zero elements, and completes (ending with the analysis request). -/
def c10Conclusion (fe base : Nat) : Prop :=
  ucodeSizing (fe - (base + UCREG_OFF)) = (0, 0) ∧
  (applyLayoutAt goodCaps (freshBV fe) base).2 = none ∧
  lastDefineTypeAt (base + UCREG_OFF)
    (applyLayoutAt goodCaps (freshBV fe) base).1.events =
    some (autoRegionTy uopTyE 0) ∧
  (applyLayoutAt goodCaps (freshBV fe) base).1.events.getLast? =
    some Event.updateAnalysis

/-- Conclusion of claim C2 at `(fe, base)`: when the microcode region is
reachable, the call leaves the type registry exactly as registration made it
(no ad hoc type is ever inserted); at full size the region variable is typed
with the pre-registered `AMD_Zen_MicrocodeRegion` type, and when truncated
it is typed with a freshly constructed ad hoc array of `usable/4` records,
and a second call constructs an equal ad hoc type again rather than reusing
a registered one. -/
def c2Conclusion (fe base : Nat) : Prop :=
  (applyLayoutAt goodCaps (freshBV fe) base).2 = none ∧
  (applyLayoutAt goodCaps (freshBV fe) base).1.registry = regList ∧
  ((ucodeSizing (fe - (base + UCREG_OFF))).1 = UCREG_SIZE →
    lastDefineTypeAt (base + UCREG_OFF)
      (applyLayoutAt goodCaps (freshBV fe) base).1.events = some regTyE) ∧
  ((ucodeSizing (fe - (base + UCREG_OFF))).1 ≠ UCREG_SIZE →
    lastDefineTypeAt (base + UCREG_OFF)
      (applyLayoutAt goodCaps (freshBV fe) base).1.events =
      some (autoRegionTy uopTyE (ucodeSizing (fe - (base + UCREG_OFF))).2) ∧
    (applyLayoutAt goodCaps (applyLayoutAt goodCaps (freshBV fe) base).1 base).1.registry =
      regList ∧
    lastDefineTypeAt (base + UCREG_OFF)
      (applyLayoutAt goodCaps (applyLayoutAt goodCaps (freshBV fe) base).1 base).1.events =
      some (autoRegionTy uopTyE (ucodeSizing (fe - (base + UCREG_OFF))).2))

/-- Conclusion of claim C8 (amended) at `(fe, base)`: in a call that reaches
the microcode-region definition, the analysis re-run request is the last
host call of the trace, the call completes (no exception, final info
message) even when the host's `update_analysis` raises, and the run is
identical to one where `update_analysis` succeeds. -/
def c8Conclusion (fe base : Nat) : Prop :=
  (applyLayoutAt capsNoAnalysis (freshBV fe) base).2 = none ∧
  (applyLayoutAt capsNoAnalysis (freshBV fe) base).1.events.getLast? =
    some Event.updateAnalysis ∧
  ((applyLayoutAt capsNoAnalysis (freshBV fe) base).1.log.getLast?.map LogMsg.level) =
    some LogLevel.info ∧
  applyLayoutAt capsNoAnalysis (freshBV fe) base =
    applyLayoutAt goodCaps (freshBV fe) base

/-- The data-variable store after one apply at `base` on an image ending at
`fe`, as a function of the prior store. -/
def modelVars (fe base : Nat) (f : Nat → Option BNType) : Nat → Option BNType :=
  let f3 := upd (upd (upd f (base + 0x0) (some patchTyE)) (base + HDR_OFF) (some hdrTyE))
    (base + RANDOM_OFF) (some randTyE)
  if fe ≤ base + UCREG_OFF then f3
  else
    upd f3 (base + UCREG_OFF)
      (some (if (ucodeSizing (fe - (base + UCREG_OFF))).1 = UCREG_SIZE then regTyE
        else autoRegionTy uopTyE (ucodeSizing (fe - (base + UCREG_OFF))).2))

/-- The symbol store after one apply at `base`. -/
def modelSyms (fe base : Nat) (f : Nat → Option String) : Nat → Option String :=
  let f3 := upd (upd (upd f (base + 0x0) (some "amd_mc_patch")) (base + HDR_OFF)
    (some "amd_mc_header")) (base + RANDOM_OFF) (some "amd_mc_random_blocks")
  if fe ≤ base + UCREG_OFF then f3
  else upd f3 (base + UCREG_OFF) (some "amd_ucode_region")

/-- The comment store after one apply at `base` (only the container comment
is ever attached, in every branch). -/
def modelComs (base : Nat) (f : Nat → Option String) : Nat → Option String :=
  upd f (base + 0x0) (some "AMD microcode patch container")

/-! ### Basic lemmas about the state operations -/

theorem upd_upd_same {α : Type} (f : Nat → Option α) (a : Nat) (v w : Option α) :
    upd (upd f a v) a w = upd f a w := by
  funext x
  simp only [upd]
  split <;> rfl

theorem upd_self {α : Type} (f : Nat → Option α) (a : Nat) (v : Option α) :
    upd f a v a = v := by
  simp [upd]

@[simp] theorem checkSize_registry (bv : BV) (base : Nat) :
    (checkSize bv base).registry = bv.registry := by
  simp only [checkSize]
  split <;> rfl

@[simp] theorem checkSize_dataVars (bv : BV) (base : Nat) :
    (checkSize bv base).dataVars = bv.dataVars := by
  simp only [checkSize]
  split <;> rfl

@[simp] theorem checkSize_symbols (bv : BV) (base : Nat) :
    (checkSize bv base).symbols = bv.symbols := by
  simp only [checkSize]
  split <;> rfl

@[simp] theorem checkSize_comments (bv : BV) (base : Nat) :
    (checkSize bv base).comments = bv.comments := by
  simp only [checkSize]
  split <;> rfl

@[simp] theorem checkSize_events (bv : BV) (base : Nat) :
    (checkSize bv base).events = bv.events := by
  simp only [checkSize]
  split <;> rfl

@[simp] theorem checkSize_fileEnd (bv : BV) (base : Nat) :
    (checkSize bv base).fileEnd = bv.fileEnd := by
  simp only [checkSize]
  split <;> rfl

@[simp] theorem lookupType_checkSize (bv : BV) (base : Nat) (n : String) :
    lookupType (checkSize bv base) n = lookupType bv n := by
  unfold lookupType
  rw [checkSize_registry]

@[simp] theorem defineVar_registry (bv : BV) (a : Nat) (t : BNType)
    (s c : Option String) : (defineVar bv a t s c).registry = bv.registry := by
  unfold defineVar safeUndefVar recordEvent
  cases s <;> cases c <;> rfl

@[simp] theorem defineVar_fileEnd (bv : BV) (a : Nat) (t : BNType)
    (s c : Option String) : (defineVar bv a t s c).fileEnd = bv.fileEnd := by
  unfold defineVar safeUndefVar recordEvent
  cases s <;> cases c <;> rfl

@[simp] theorem defineVar_log (bv : BV) (a : Nat) (t : BNType)
    (s c : Option String) : (defineVar bv a t s c).log = bv.log := by
  unfold defineVar safeUndefVar recordEvent
  cases s <;> cases c <;> rfl

@[simp] theorem defineVar_dataVars (bv : BV) (a : Nat) (t : BNType)
    (s c : Option String) :
    (defineVar bv a t s c).dataVars = upd bv.dataVars a (some t) := by
  unfold defineVar safeUndefVar recordEvent
  cases s <;> cases c <;> simp [upd_upd_same]

@[simp] theorem defineVar_symbols_some (bv : BV) (a : Nat) (t : BNType)
    (s : String) (c : Option String) :
    (defineVar bv a t (some s) c).symbols = upd bv.symbols a (some s) := by
  unfold defineVar safeUndefVar recordEvent
  cases c <;> rfl

@[simp] theorem defineVar_symbols_none (bv : BV) (a : Nat) (t : BNType)
    (c : Option String) :
    (defineVar bv a t none c).symbols = bv.symbols := by
  unfold defineVar safeUndefVar recordEvent
  cases c <;> rfl

@[simp] theorem defineVar_comments_some (bv : BV) (a : Nat) (t : BNType)
    (s : Option String) (c : String) :
    (defineVar bv a t s (some c)).comments = upd bv.comments a (some c) := by
  unfold defineVar safeUndefVar recordEvent
  cases s <;> rfl

@[simp] theorem defineVar_comments_none (bv : BV) (a : Nat) (t : BNType)
    (s : Option String) :
    (defineVar bv a t s none).comments = bv.comments := by
  unfold defineVar safeUndefVar recordEvent
  cases s <;> rfl

@[simp] theorem lookupType_defineVar (bv : BV) (a : Nat) (t : BNType)
    (s c : Option String) (n : String) :
    lookupType (defineVar bv a t s c) n = lookupType bv n := by
  unfold lookupType
  rw [defineVar_registry]

@[simp] theorem updateAnalysisCall_fst (c : Caps) (bv : BV) :
    (updateAnalysisCall c bv).1 = recordEvent bv Event.updateAnalysis := by
  unfold updateAnalysisCall
  split <;> rfl

@[simp] theorem errorCount_logInfo (bv : BV) (t : String) :
    errorCount (logInfo bv t) = errorCount bv := by
  simp [errorCount, logInfo, logAt, List.filter_append]
  decide

@[simp] theorem errorCount_logWarn (bv : BV) (t : String) :
    errorCount (logWarn bv t) = errorCount bv := by
  simp [errorCount, logWarn, logAt, List.filter_append]
  decide

@[simp] theorem errorCount_checkSize (bv : BV) (base : Nat) :
    errorCount (checkSize bv base) = errorCount bv := by
  simp only [checkSize]
  split
  · exact errorCount_logWarn ..
  · rfl

@[simp] theorem errorCount_defineVar (bv : BV) (a : Nat) (t : BNType)
    (s c : Option String) : errorCount (defineVar bv a t s c) = errorCount bv := by
  unfold errorCount
  rw [defineVar_log]

@[simp] theorem errorCount_recordEvent (bv : BV) (e : Event) :
    errorCount (recordEvent bv e) = errorCount bv := rfl

@[simp] theorem hasWarn_logWarn_self (bv : BV) (t : String) :
    hasWarn (logWarn bv t) t = true := by
  simp [hasWarn, logWarn, logAt, List.any_append]
  exact Or.inr rfl

set_option maxHeartbeats 1000000 in
set_option maxRecDepth 4000 in
theorem applyBody_model (c : Caps) (bv : BV) (base : Nat)
    (hreg : bv.registry = regList) :
    applyBody c bv base = (applyModel bv base, none) := by
  have hp : lookupType bv T_PATCH = some patchTyE := by
    unfold lookupType
    rw [hreg]
    rfl
  have hh : lookupType bv T_HDR = some hdrTyE := by
    unfold lookupType
    rw [hreg]
    rfl
  have hr : lookupType bv T_RAND = some randTyE := by
    unfold lookupType
    rw [hreg]
    rfl
  have hg : lookupType bv T_REG = some regTyE := by
    unfold lookupType
    rw [hreg]
    rfl
  have hu : lookupType bv T_UOP = some uopTyE := by
    unfold lookupType
    rw [hreg]
    rfl
  unfold applyBody applyModel parseAutoRegionType
  simp only [lookupType_checkSize, lookupType_defineVar, hp, hh, hr, hg, hu,
    updateAnalysisCall_fst, checkSize_fileEnd, defineVar_fileEnd]
  by_cases hle : bv.fileEnd <= base + UCREG_OFF
  case pos => simp only [if_pos hle]
  case neg =>
    simp only [if_neg hle]
    by_cases hs : (ucodeSizing (bv.fileEnd - (base + UCREG_OFF))).1 = UCREG_SIZE
    case pos => simp only [if_pos hs]
    case neg => simp only [if_neg hs]

theorem ensureTypes_goodCaps_fresh (fe : Nat) :
    ensureTypes goodCaps (freshBV fe) = (ensuredBV fe, none) := rfl

theorem ensureTypes_noAnalysis_fresh (fe : Nat) :
    ensureTypes capsNoAnalysis (freshBV fe) = (ensuredBV fe, none) := rfl

theorem ensureTypes_noop (c : Caps) (bv : BV) (t : BNType)
    (h : lookupType bv T_PATCH = some t) : ensureTypes c bv = (bv, none) := by
  unfold ensureTypes
  rw [h]
  rfl

theorem applyLayoutAt_fresh (fe base : Nat) :
    applyLayoutAt goodCaps (freshBV fe) base = (applyModel (ensuredBV fe) base, none) := by
  unfold applyLayoutAt
  simp only [ensureTypes_goodCaps_fresh]
  exact applyBody_model goodCaps (ensuredBV fe) base rfl

theorem applyLayoutAt_noAnalysis_fresh (fe base : Nat) :
    applyLayoutAt capsNoAnalysis (freshBV fe) base =
      (applyModel (ensuredBV fe) base, none) := by
  unfold applyLayoutAt
  simp only [ensureTypes_noAnalysis_fresh]
  exact applyBody_model capsNoAnalysis (ensuredBV fe) base rfl

@[simp] theorem applyModel_registry (bv : BV) (base : Nat) :
    (applyModel bv base).registry = bv.registry := by
  simp only [applyModel]
  split
  · simp [logWarn, logAt]
  · split <;> simp [logInfo, logAt, recordEvent]

@[simp] theorem applyModel_fileEnd (bv : BV) (base : Nat) :
    (applyModel bv base).fileEnd = bv.fileEnd := by
  simp only [applyModel]
  split
  · simp [logWarn, logAt]
  · split <;> simp [logInfo, logAt, recordEvent]

theorem applyLayoutAt_again (fe base : Nat) :
    applyLayoutAt goodCaps (applyModel (ensuredBV fe) base) base =
      (applyModel (applyModel (ensuredBV fe) base) base, none) := by
  unfold applyLayoutAt
  have h1 : lookupType (applyModel (ensuredBV fe) base) T_PATCH = some patchTyE := by
    unfold lookupType
    rw [applyModel_registry]
    rfl
  rw [ensureTypes_noop goodCaps _ _ h1]
  exact applyBody_model goodCaps _ base (by rw [applyModel_registry]; rfl)

/-! ### Helper facts for the claim theorems -/

theorem ensureTypes_not_present (c : Caps) (bv : BV)
    (hp : (lookupType bv T_PATCH).isSome = false) :
    ensureTypes c bv = ensureTypesFull c bv := by
  unfold ensureTypes
  rw [hp]
  rfl

theorem ensureTypes_registers (c : Caps) (bv : BV)
    (h2 : (ensureTypes c bv).2 = none) :
    ((lookupType (ensureTypes c bv).1 T_PATCH).isSome = true) := by
  by_cases hp : (lookupType bv T_PATCH).isSome = true
  · have h1 : ensureTypes c bv = (bv, none) := by
      unfold ensureTypes
      rw [if_pos hp]
    rw [h1]
    exact hp
  · have hp' : (lookupType bv T_PATCH).isSome = false := by
      simpa using hp
    rw [ensureTypes_not_present c bv hp'] at h2 ⊢
    rcases c with ⟨e, i, s, a⟩
    cases e <;> cases i <;> cases s
    · rw [show (ensureTypesFull ⟨false, false, false, a⟩ bv).2 =
          some ("Cannot construct Type.int(" ++ toString 1 ++ ")") from rfl] at h2
      exact Option.noConfusion h2
    · rw [show (ensureTypesFull ⟨false, false, true, a⟩ bv).2 =
          some ("Cannot construct Type.int(" ++ toString 1 ++ ")") from rfl] at h2
      exact Option.noConfusion h2
    · rw [show (ensureTypesFull ⟨false, true, false, a⟩ bv).2 =
          some "No Type.structure / Type.structure_type available on this BN build"
          from rfl] at h2
      exact Option.noConfusion h2
    · exact rfl
    · rw [show (ensureTypesFull ⟨true, false, false, a⟩ bv).2 =
          some ("Cannot construct Type.int(" ++ toString 1 ++ ")") from rfl] at h2
      exact Option.noConfusion h2
    · rw [show (ensureTypesFull ⟨true, false, true, a⟩ bv).2 =
          some ("Cannot construct Type.int(" ++ toString 1 ++ ")") from rfl] at h2
      exact Option.noConfusion h2
    · rw [show (ensureTypesFull ⟨true, true, false, a⟩ bv).2 =
          some "No Type.structure / Type.structure_type available on this BN build"
          from rfl] at h2
      exact Option.noConfusion h2
    · exact rfl

@[simp] theorem ensuredBV_registry (fe : Nat) : (ensuredBV fe).registry = regList := rfl

@[simp] theorem ensuredBV_fileEnd (fe : Nat) : (ensuredBV fe).fileEnd = fe := rfl

@[simp] theorem ensuredBV_events (fe : Nat) : (ensuredBV fe).events = [] := rfl

@[simp] theorem ensuredBV_log (fe : Nat) : (ensuredBV fe).log = ensureLogs := rfl

theorem applyModel_early (bv : BV) (base : Nat) (h : bv.fileEnd ≤ base + UCREG_OFF) :
    applyModel bv base =
      logWarn
        (defineVar
          (defineVar
            (defineVar (checkSize bv base) (base + 0x0) patchTyE
              (some "amd_mc_patch") (some "AMD microcode patch container"))
            (base + HDR_OFF) hdrTyE (some "amd_mc_header") none)
          (base + RANDOM_OFF) randTyE (some "amd_mc_random_blocks") none)
        "No bytes available for ucode region at this base." := by
  simp only [applyModel, checkSize_fileEnd, defineVar_fileEnd]
  rw [if_pos h]

theorem applyModel_full (bv : BV) (base : Nat)
    (h1 : ¬ bv.fileEnd ≤ base + UCREG_OFF)
    (h2 : (ucodeSizing (bv.fileEnd - (base + UCREG_OFF))).1 = UCREG_SIZE) :
    applyModel bv base =
      logInfo
        (recordEvent
          (defineVar
            (defineVar
              (defineVar
                (defineVar (checkSize bv base) (base + 0x0) patchTyE
                  (some "amd_mc_patch") (some "AMD microcode patch container"))
                (base + HDR_OFF) hdrTyE (some "amd_mc_header") none)
              (base + RANDOM_OFF) randTyE (some "amd_mc_random_blocks") none)
            (base + UCREG_OFF) regTyE (some "amd_ucode_region") none)
          Event.updateAnalysis)
        ("Applied AMD microcode layout at 0x" ++ hexStr base ++ " (uops=0x" ++
          hexStr (ucodeSizing (bv.fileEnd - (base + UCREG_OFF))).2 ++ ").") := by
  simp only [applyModel, checkSize_fileEnd, defineVar_fileEnd]
  rw [if_neg h1, if_pos h2]

theorem applyModel_trunc (bv : BV) (base : Nat)
    (h1 : ¬ bv.fileEnd ≤ base + UCREG_OFF)
    (h2 : ¬ (ucodeSizing (bv.fileEnd - (base + UCREG_OFF))).1 = UCREG_SIZE) :
    applyModel bv base =
      logInfo
        (recordEvent
          (defineVar
            (defineVar
              (defineVar
                (defineVar (checkSize bv base) (base + 0x0) patchTyE
                  (some "amd_mc_patch") (some "AMD microcode patch container"))
                (base + HDR_OFF) hdrTyE (some "amd_mc_header") none)
              (base + RANDOM_OFF) randTyE (some "amd_mc_random_blocks") none)
            (base + UCREG_OFF)
            (autoRegionTy uopTyE (ucodeSizing (bv.fileEnd - (base + UCREG_OFF))).2)
            (some "amd_ucode_region") none)
          Event.updateAnalysis)
        ("Applied AMD microcode layout at 0x" ++ hexStr base ++ " (uops=0x" ++
          hexStr (ucodeSizing (bv.fileEnd - (base + UCREG_OFF))).2 ++ ").") := by
  simp only [applyModel, checkSize_fileEnd, defineVar_fileEnd]
  rw [if_neg h1, if_neg h2]

/-! ### Claim theorems -/

/-- C1: for every `apply_layout_at` call with
`available_bytes = file_end - (base + 0x320) > 0`, the region sizing
computes `usable = min(available_bytes, 0x3500)` truncated down to the
nearest multiple of 4 (so `usable` is a multiple of 4, never exceeds the
bytes available nor the nominal size, and no partial trailing 4-byte record
is included), and `record_count = usable / 4`. -/
theorem c1_region_sizing (available : Nat) (h : 0 < available) :
    (ucodeSizing available).1 = 4 * (min available 0x3500 / 4) ∧
    (ucodeSizing available).1 = min available 0x3500 - min available 0x3500 % 4 ∧
    4 ∣ (ucodeSizing available).1 ∧
    (ucodeSizing available).1 ≤ available ∧
    (ucodeSizing available).1 ≤ 0x3500 ∧
    (ucodeSizing available).2 = (ucodeSizing available).1 / 4 := by
  simp only [ucodeSizing, UCREG_SIZE, UOP_SIZE, Nat.min_def]
  split_ifs <;> refine ⟨?_, ?_, ?_, ?_, ?_, ?_⟩ <;> first | trivial | omega

theorem c1_region_sizing_witness :
    0 < 5 ∧
    ((ucodeSizing 5).1 = 4 * (min 5 0x3500 / 4) ∧
     (ucodeSizing 5).1 = min 5 0x3500 - min 5 0x3500 % 4 ∧
     4 ∣ (ucodeSizing 5).1 ∧
     (ucodeSizing 5).1 ≤ 5 ∧
     (ucodeSizing 5).1 ≤ 0x3500 ∧
     (ucodeSizing 5).2 = (ucodeSizing 5).1 / 4) :=
  ⟨by decide, c1_region_sizing 5 (by decide)⟩

/-- C9: the registered packed types match the byte-exact format: the
micro-op record is 4 bytes (1-byte opcode via the width-1 enum reference,
1-byte flags, 2-byte immediate), the header's field widths sum to exactly
0x20 bytes, the random-blocks type is 0x300 bytes (three 0x100 arrays), the
microcode region is 0x3500 bytes (0xD40 records of 4 bytes), the patch
container is 0x3820 bytes (0x20 header plus 0x3800 body), and every
registered structure is packed (no implicit padding). -/
theorem c9_registered_types_byte_exact :
    lookupType (ensureTypes goodCaps (freshBV 0)).1 T_UOP = some uopTyE ∧
    lookupType (ensureTypes goodCaps (freshBV 0)).1 T_HDR = some hdrTyE ∧
    lookupType (ensureTypes goodCaps (freshBV 0)).1 T_RAND = some randTyE ∧
    lookupType (ensureTypes goodCaps (freshBV 0)).1 T_REG = some regTyE ∧
    lookupType (ensureTypes goodCaps (freshBV 0)).1 T_PATCH = some patchTyE ∧
    BNType.size uopTyE = 4 ∧
    BNType.size (BNType.namedT T_ENUM enumTy) = 1 ∧
    BNType.size (BNType.uintT 1) = 1 ∧
    BNType.size (BNType.uintT 2) = 2 ∧
    BNType.size hdrTyE = 0x20 ∧
    BNType.size randTyE = 0x300 ∧
    BNType.size (BNType.arrayT (BNType.uintT 1) 0x100) = 0x100 ∧
    BNType.size regTyE = 0x3500 ∧
    UOP_COUNT = 0xD40 ∧
    BNType.size regTyE = UOP_COUNT * BNType.size uopTyE ∧
    BNType.size patchTyE = 0x3820 ∧
    BNType.size patchTyE = BNType.size hdrTyE + 0x3800 ∧
    isPackedStruct uopTyE = true ∧
    isPackedStruct hdrTyE = true ∧
    isPackedStruct randTyE = true ∧
    isPackedStruct regTyE = true ∧
    isPackedStruct patchTyE = true := by
  refine ⟨rfl, rfl, rfl, rfl, rfl, ?_, ?_, ?_, ?_, ?_, ?_, ?_, ?_, by norm_num [UOP_COUNT, UCREG_SIZE, UOP_SIZE], ?_, ?_, ?_, rfl, rfl, rfl, rfl, rfl⟩ <;>
    simp [BNType.size, fieldsSize, uopTyE, hdrTyE, randTyE, regTyE, patchTyE,
      enumTy, UOP_COUNT, UCREG_SIZE, UOP_SIZE]

/-- C6: `_ensure_types` is idempotent: when the top-level container type
`AMD_MC_Patch` already exists by name it returns immediately leaving the
state (registry, variables, log) untouched and raising nothing; and after
any call that completes without an exception, a repeat call is exactly such
a no-op, so N calls perform exactly one full construction pass with no
duplicate-name errors and no mutation of previously registered types. -/
theorem c6_ensure_types_idempotent (c : Caps) (bv : BV) :
    ((lookupType bv T_PATCH).isSome = true → ensureTypes c bv = (bv, none)) ∧
    ((ensureTypes c bv).2 = none →
      ensureTypes c (ensureTypes c bv).1 = ((ensureTypes c bv).1, none)) := by
  constructor
  · intro h
    unfold ensureTypes
    rw [if_pos h]
  · intro h2
    have h3 := ensureTypes_registers c bv h2
    obtain ⟨t, ht⟩ := Option.isSome_iff_exists.mp h3
    exact ensureTypes_noop c _ t ht

theorem c6_ensure_types_idempotent_witness :
    ((lookupType (defineUserType (freshBV 0) T_PATCH patchTyE) T_PATCH).isSome = true ∧
     ensureTypes goodCaps (defineUserType (freshBV 0) T_PATCH patchTyE) =
       (defineUserType (freshBV 0) T_PATCH patchTyE, none)) ∧
    ((ensureTypes goodCaps (freshBV 0)).2 = none ∧
     ensureTypes goodCaps (ensureTypes goodCaps (freshBV 0)).1 =
       ((ensureTypes goodCaps (freshBV 0)).1, none)) :=
  ⟨⟨rfl, (c6_ensure_types_idempotent goodCaps (defineUserType (freshBV 0) T_PATCH patchTyE)).1 rfl⟩,
   ⟨rfl, (c6_ensure_types_idempotent goodCaps (freshBV 0)).2 rfl⟩⟩

/-- C7: when the host cannot construct the opcode enumeration type,
registration does not fail: no exception is raised, the micro-op record is
registered with a plain unsigned 1-byte opcode field, all remaining
structural types are still registered, no enum type is registered, and the
condition surfaces only as a warning, never as an error. -/
theorem c7_enum_fallback (fe : Nat) :
    (ensureTypes capsNoEnum (freshBV fe)).2 = none ∧
    lookupType (ensureTypes capsNoEnum (freshBV fe)).1 T_UOP = some uopTyPlain ∧
    lookupType (ensureTypes capsNoEnum (freshBV fe)).1 T_REG =
      some (.structT true [("uops", .arrayT (.namedT T_UOP uopTyPlain) UOP_COUNT)]) ∧
    (lookupType (ensureTypes capsNoEnum (freshBV fe)).1 T_HDR).isSome = true ∧
    (lookupType (ensureTypes capsNoEnum (freshBV fe)).1 T_RAND).isSome = true ∧
    (lookupType (ensureTypes capsNoEnum (freshBV fe)).1 T_PATCH).isSome = true ∧
    lookupType (ensureTypes capsNoEnum (freshBV fe)).1 T_ENUM = none ∧
    errorCount (ensureTypes capsNoEnum (freshBV fe)).1 = 0 ∧
    hasWarn (ensureTypes capsNoEnum (freshBV fe)).1
      "Could not create AMD_Zen_Opcode enum on this BN build; opcode will be uint8." =
      true :=
  ⟨rfl, rfl, rfl, rfl, rfl, rfl, rfl, rfl, rfl⟩

/-- C5 counterexample: on a host where structural types cannot be
constructed, `apply_layout_at` does abort with a single diagnostic and no
variable definitions, but the diagnostic is a fixed generic message that
does not name which type failed: it contains none of the module's type
names, refuting the claim that the diagnostic names the failed type. -/
theorem c5_diagnostic_names_no_type_cex :
    (applyLayoutAt capsNoStruct (freshBV 0x4000) 0).2 =
      some "No Type.structure / Type.structure_type available on this BN build" ∧
    (applyLayoutAt capsNoStruct (freshBV 0x4000) 0).1.events = [] ∧
    strContainsSub "No Type.structure / Type.structure_type available on this BN build"
      T_UOP = false ∧
    strContainsSub "No Type.structure / Type.structure_type available on this BN build"
      T_REG = false ∧
    strContainsSub "No Type.structure / Type.structure_type available on this BN build"
      T_HDR = false ∧
    strContainsSub "No Type.structure / Type.structure_type available on this BN build"
      T_RAND = false ∧
    strContainsSub "No Type.structure / Type.structure_type available on this BN build"
      T_PATCH = false ∧
    strContainsSub "No Type.structure / Type.structure_type available on this BN build"
      T_ENUM = false :=
  ⟨rfl, rfl, by decide, by decide, by decide, by decide, by decide, by decide⟩

/-- C5 (amended): if a structural type cannot be constructed at all during
registration, `apply_layout_at` aborts before defining any variable and
surfaces a single diagnostic — a generic message that does not name the
specific failed type — and no variables are defined in that call. -/
theorem c5_registration_failure_aborts (c : Caps) (fe base : Nat)
    (hi : c.intOk = true) (hs : c.structOk = false) :
    (applyLayoutAt c (freshBV fe) base).2 =
      some "No Type.structure / Type.structure_type available on this BN build" ∧
    (applyLayoutAt c (freshBV fe) base).1.events = [] ∧
    errorCount (applyLayoutAt c (freshBV fe) base).1 = 0 := by
  rcases c with ⟨e, i, s, a⟩
  simp only at hi hs
  subst hi
  subst hs
  cases e <;> exact ⟨rfl, rfl, rfl⟩

theorem c5_registration_failure_aborts_witness :
    (capsNoStruct.intOk = true ∧ capsNoStruct.structOk = false) ∧
    ((applyLayoutAt capsNoStruct (freshBV 5) 7).2 =
      some "No Type.structure / Type.structure_type available on this BN build" ∧
     (applyLayoutAt capsNoStruct (freshBV 5) 7).1.events = [] ∧
     errorCount (applyLayoutAt capsNoStruct (freshBV 5) 7).1 = 0) :=
  ⟨⟨rfl, rfl⟩, c5_registration_failure_aborts capsNoStruct 5 7 rfl rfl⟩


theorem errorCount_applyModel (bv : BV) (base : Nat) :
    errorCount (applyModel bv base) = errorCount bv := by
  by_cases hle : bv.fileEnd ≤ base + UCREG_OFF
  · rw [applyModel_early _ _ hle]
    simp
  · by_cases h2 : (ucodeSizing (bv.fileEnd - (base + UCREG_OFF))).1 = UCREG_SIZE
    · rw [applyModel_full _ _ hle h2]
      simp
    · rw [applyModel_trunc _ _ hle h2]
      simp

theorem applyModel_dataVars (bv : BV) (base : Nat) :
    (applyModel bv base).dataVars = modelVars bv.fileEnd base bv.dataVars := by
  by_cases hle : bv.fileEnd ≤ base + UCREG_OFF
  · rw [applyModel_early _ _ hle]
    simp only [modelVars, logWarn, logAt, defineVar_dataVars, checkSize_dataVars]
    rw [if_pos hle]
  · by_cases h2 : (ucodeSizing (bv.fileEnd - (base + UCREG_OFF))).1 = UCREG_SIZE
    · rw [applyModel_full _ _ hle h2]
      simp only [modelVars, logInfo, logAt, recordEvent, defineVar_dataVars,
        checkSize_dataVars]
      rw [if_neg hle, if_pos h2]
    · rw [applyModel_trunc _ _ hle h2]
      simp only [modelVars, logInfo, logAt, recordEvent, defineVar_dataVars,
        checkSize_dataVars]
      rw [if_neg hle, if_neg h2]

theorem applyModel_symbols (bv : BV) (base : Nat) :
    (applyModel bv base).symbols = modelSyms bv.fileEnd base bv.symbols := by
  by_cases hle : bv.fileEnd ≤ base + UCREG_OFF
  · rw [applyModel_early _ _ hle]
    simp only [modelSyms, logWarn, logAt, defineVar_symbols_some, checkSize_symbols]
    rw [if_pos hle]
  · by_cases h2 : (ucodeSizing (bv.fileEnd - (base + UCREG_OFF))).1 = UCREG_SIZE
    · rw [applyModel_full _ _ hle h2]
      simp only [modelSyms, logInfo, logAt, recordEvent, defineVar_symbols_some,
        checkSize_symbols]
      rw [if_neg hle]
    · rw [applyModel_trunc _ _ hle h2]
      simp only [modelSyms, logInfo, logAt, recordEvent, defineVar_symbols_some,
        checkSize_symbols]
      rw [if_neg hle]

theorem applyModel_comments (bv : BV) (base : Nat) :
    (applyModel bv base).comments = modelComs base bv.comments := by
  by_cases hle : bv.fileEnd ≤ base + UCREG_OFF
  · rw [applyModel_early _ _ hle]
    simp only [modelComs, logWarn, logAt, defineVar_comments_some,
      defineVar_comments_none, checkSize_comments]
  · by_cases h2 : (ucodeSizing (bv.fileEnd - (base + UCREG_OFF))).1 = UCREG_SIZE
    · rw [applyModel_full _ _ hle h2]
      simp only [modelComs, logInfo, logAt, recordEvent, defineVar_comments_some,
        defineVar_comments_none, checkSize_comments]
    · rw [applyModel_trunc _ _ hle h2]
      simp only [modelComs, logInfo, logAt, recordEvent, defineVar_comments_some,
        defineVar_comments_none, checkSize_comments]

theorem modelVars_idem (fe base : Nat) (f : Nat → Option BNType) :
    modelVars fe base (modelVars fe base f) = modelVars fe base f := by
  simp only [modelVars]
  split_ifs <;> funext x <;> simp only [upd] <;> split_ifs <;> rfl

theorem modelSyms_idem (fe base : Nat) (f : Nat → Option String) :
    modelSyms fe base (modelSyms fe base f) = modelSyms fe base f := by
  simp only [modelSyms]
  split_ifs <;> funext x <;> simp only [upd] <;> split_ifs <;> rfl

theorem modelComs_idem (base : Nat) (f : Nat → Option String) :
    modelComs base (modelComs base f) = modelComs base f := by
  simp only [modelComs]
  exact upd_upd_same ..

theorem applyModel_idem_dataVars (bv : BV) (base : Nat) :
    (applyModel (applyModel bv base) base).dataVars = (applyModel bv base).dataVars := by
  rw [applyModel_dataVars (applyModel bv base) base, applyModel_fileEnd,
    applyModel_dataVars bv base]
  exact modelVars_idem bv.fileEnd base bv.dataVars

theorem applyModel_idem_symbols (bv : BV) (base : Nat) :
    (applyModel (applyModel bv base) base).symbols = (applyModel bv base).symbols := by
  rw [applyModel_symbols (applyModel bv base) base, applyModel_fileEnd,
    applyModel_symbols bv base]
  exact modelSyms_idem bv.fileEnd base bv.symbols

theorem applyModel_idem_comments (bv : BV) (base : Nat) :
    (applyModel (applyModel bv base) base).comments = (applyModel bv base).comments := by
  rw [applyModel_comments (applyModel bv base) base, applyModel_comments bv base]
  exact modelComs_idem base bv.comments


/-- C4: for every base whose microcode-region start address `base + 0x320`
is at or beyond the end of the addressable image, `apply_layout_at` still
defines the container, header and random-blocks variables (exactly those
host calls, in order), defines no microcode-region variable, reports a
warning, and emits no error-severity diagnostic (the warning is distinct
from a fatal registration failure). -/
theorem c4_out_of_range (fe base : Nat) (h : fe ≤ base + UCREG_OFF) :
    c4Conclusion fe base := by
  have h' : (ensuredBV fe).fileEnd ≤ base + UCREG_OFF := h
  unfold c4Conclusion
  rw [applyLayoutAt_fresh, applyModel_early (ensuredBV fe) base h']
  have n1 : ¬(base + 0x0 = base + UCREG_OFF) := by simp [UCREG_OFF]
  have n2 : ¬(base + HDR_OFF = base + UCREG_OFF) := by simp [HDR_OFF, UCREG_OFF]
  have n3 : ¬(base + RANDOM_OFF = base + UCREG_OFF) := by simp [RANDOM_OFF, UCREG_OFF]
  refine ⟨rfl, ?_, ?_, ?_, ?_⟩
  · simp [defineVar, safeUndefVar, recordEvent, logWarn, logAt]
  · simp [definesDataAt, defineTypeAt, defineVar, safeUndefVar, recordEvent,
      logWarn, logAt, n1, n2, n3, UCREG_OFF, HDR_OFF, RANDOM_OFF]
  · exact hasWarn_logWarn_self ..
  · simp only [errorCount_logWarn, errorCount_defineVar, errorCount_checkSize]
    rfl

/-- Witness for C4 at `fe = 0x100`, `base = 0`. -/
theorem c4_out_of_range_witness : (0x100 ≤ 0 + UCREG_OFF) ∧ c4Conclusion 0x100 0 :=
  ⟨by decide, c4_out_of_range 0x100 0 (by decide)⟩

/-- C10: for every base whose microcode-region start is strictly below the
image end but with fewer than 4 bytes available there, the sizing yields
`usable = 0` and `record_count = 0`, and `apply_layout_at` still takes the
ad hoc branch and defines a microcode-region variable whose record array has
zero elements — rather than skipping the region — and runs to completion. -/
theorem c10_zero_record_region (fe base : Nat)
    (h1 : base + UCREG_OFF < fe) (h2 : fe - (base + UCREG_OFF) < 4) :
    c10Conclusion fe base := by
  have hs : ucodeSizing (fe - (base + UCREG_OFF)) = (0, 0) := by
    rw [Prod.ext_iff]
    simp only [ucodeSizing, Nat.min_def, UCREG_SIZE, UOP_SIZE]
    constructor <;> split_ifs <;> omega
  have h1' : ¬ (ensuredBV fe).fileEnd ≤ base + UCREG_OFF := by
    simp only [ensuredBV_fileEnd]
    omega
  have h2' : ¬ (ucodeSizing ((ensuredBV fe).fileEnd - (base + UCREG_OFF))).1 = UCREG_SIZE := by
    simp only [ensuredBV_fileEnd]
    rw [hs]
    simp [UCREG_SIZE]
  unfold c10Conclusion
  rw [applyLayoutAt_fresh, applyModel_trunc (ensuredBV fe) base h1' h2']
  simp only [ensuredBV_fileEnd, hs]
  refine ⟨trivial, trivial, ?_, ?_⟩
  · simp [lastDefineTypeAt, defineTypeAt, defineVar, safeUndefVar, recordEvent,
      logInfo, logWarn, logAt, UCREG_OFF, HDR_OFF, RANDOM_OFF]
  · simp [defineVar, safeUndefVar, recordEvent, logInfo, logWarn, logAt]

/-- Witness for C10 at `fe = 0x321`, `base = 0` (one byte available). -/
theorem c10_zero_record_region_witness :
    (0 + UCREG_OFF < 0x321 ∧ 0x321 - (0 + UCREG_OFF) < 4) ∧ c10Conclusion 0x321 0 :=
  ⟨⟨by decide, by decide⟩, c10_zero_record_region 0x321 0 (by decide) (by decide)⟩

/-- C8 counterexample: at `base = 0` on an image ending at `0x320`, the call
defines variables (container, header, random blocks) yet never requests the
host analysis re-run: the early return for an out-of-range microcode region
skips `update_analysis`, refuting the claim that every call defining at
least one variable requests it. -/
theorem c8_update_analysis_cex :
    (applyLayoutAt goodCaps (freshBV 0x320) 0).1.events.any isDefineData = true ∧
    (applyLayoutAt goodCaps (freshBV 0x320) 0).1.events.any isUpdateAnalysis = false :=
  ⟨rfl, rfl⟩

/-- C8 (amended): in every call that reaches the microcode-region
definition (`base + 0x320 < file_end`), the analysis re-run request is made
after all region definitions (it is the last host call of the trace), and a
failing `update_analysis` is non-fatal: the call still completes with no
exception, its final log message is the info-severity completion message,
and the run equals the run with a succeeding `update_analysis`. -/
theorem c8_update_analysis_on_region_apply (fe base : Nat)
    (h : base + UCREG_OFF < fe) : c8Conclusion fe base := by
  have h1' : ¬ (ensuredBV fe).fileEnd ≤ base + UCREG_OFF := by
    simp only [ensuredBV_fileEnd]
    omega
  unfold c8Conclusion
  rw [applyLayoutAt_noAnalysis_fresh, applyLayoutAt_fresh]
  refine ⟨rfl, ?_, ?_, rfl⟩
  · by_cases h2 : (ucodeSizing ((ensuredBV fe).fileEnd - (base + UCREG_OFF))).1 = UCREG_SIZE
    · rw [applyModel_full _ _ h1' h2]
      simp [defineVar, safeUndefVar, recordEvent, logInfo, logAt]
    · rw [applyModel_trunc _ _ h1' h2]
      simp [defineVar, safeUndefVar, recordEvent, logInfo, logAt]
  · by_cases h2 : (ucodeSizing ((ensuredBV fe).fileEnd - (base + UCREG_OFF))).1 = UCREG_SIZE
    · rw [applyModel_full _ _ h1' h2]
      simp [defineVar, safeUndefVar, recordEvent, logInfo, logAt, List.getLast?_concat]
    · rw [applyModel_trunc _ _ h1' h2]
      simp [defineVar, safeUndefVar, recordEvent, logInfo, logAt, List.getLast?_concat]

/-- Witness for amended C8 at `fe = 0x4000`, `base = 0`. -/
theorem c8_update_analysis_on_region_apply_witness :
    (0 + UCREG_OFF < 0x4000) ∧ c8Conclusion 0x4000 0 :=
  ⟨by decide, c8_update_analysis_on_region_apply 0x4000 0 (by decide)⟩

/-- C2: when the computed usable size equals the nominal 0x3500 the region
is typed with the pre-registered `AMD_Zen_MicrocodeRegion` type and the
registry gains nothing; when it is smaller, a freshly-sized ad hoc array
type with exactly `usable/4` records types the region, that type is not
inserted into the permanent registry, and a second call with the same
truncated length constructs a fresh equal type rather than reusing a cached
registry entry. -/
theorem c2_region_type_selection (fe base : Nat) (h : base + UCREG_OFF < fe) :
    c2Conclusion fe base := by
  have h1' : ¬ (ensuredBV fe).fileEnd ≤ base + UCREG_OFF := by
    simp only [ensuredBV_fileEnd]
    omega
  unfold c2Conclusion
  rw [applyLayoutAt_fresh]
  refine ⟨rfl, by simp, ?_, ?_⟩
  · intro h2
    have h2' : (ucodeSizing ((ensuredBV fe).fileEnd - (base + UCREG_OFF))).1 = UCREG_SIZE := by
      simpa using h2
    rw [applyModel_full _ _ h1' h2']
    simp [lastDefineTypeAt, defineTypeAt, defineVar, safeUndefVar, recordEvent,
      logInfo, logAt, UCREG_OFF, HDR_OFF, RANDOM_OFF]
  · intro h2
    have h2' : ¬ (ucodeSizing ((ensuredBV fe).fileEnd - (base + UCREG_OFF))).1 = UCREG_SIZE := by
      simpa using h2
    refine ⟨?_, ?_, ?_⟩
    · rw [applyModel_trunc _ _ h1' h2']
      simp [lastDefineTypeAt, defineTypeAt, defineVar, safeUndefVar, recordEvent,
        logInfo, logAt, UCREG_OFF, HDR_OFF, RANDOM_OFF]
    · rw [applyLayoutAt_again]
      simp
    · rw [applyLayoutAt_again]
      have hf : (applyModel (ensuredBV fe) base).fileEnd = fe := by simp
      have h1'' : ¬ (applyModel (ensuredBV fe) base).fileEnd ≤ base + UCREG_OFF := by
        rw [hf]
        omega
      have h2'' : ¬ (ucodeSizing ((applyModel (ensuredBV fe) base).fileEnd -
          (base + UCREG_OFF))).1 = UCREG_SIZE := by
        rw [hf]
        simpa using h2
      rw [applyModel_trunc _ _ h1'' h2'']
      simp [lastDefineTypeAt, defineTypeAt, defineVar, safeUndefVar, recordEvent,
        logInfo, logAt, hf, UCREG_OFF, HDR_OFF, RANDOM_OFF, List.filterMap_append,
        List.getLast?_concat]

/-- Witness for C2 at `fe = 0x1000`, `base = 0` (truncated branch). -/
theorem c2_region_type_selection_witness :
    (0 + UCREG_OFF < 0x1000) ∧ c2Conclusion 0x1000 0 :=
  ⟨by decide, c2_region_type_selection 0x1000 0 (by decide)⟩

/-- C3: calling `apply_layout_at(bv, base)` twice in succession with
unchanged input bytes yields the same final set of typed variables
(addresses and types, symbols, comments) as calling it once, leaves the
registry unchanged, and the second call raises nothing and adds no
error-severity diagnostics (no duplicate or conflicting definitions, no
registration errors). -/
theorem c3_apply_idempotent (fe base : Nat) :
    (applyLayoutAt goodCaps (applyLayoutAt goodCaps (freshBV fe) base).1 base).2 = none ∧
    (applyLayoutAt goodCaps (applyLayoutAt goodCaps (freshBV fe) base).1 base).1.dataVars =
      (applyLayoutAt goodCaps (freshBV fe) base).1.dataVars ∧
    (applyLayoutAt goodCaps (applyLayoutAt goodCaps (freshBV fe) base).1 base).1.symbols =
      (applyLayoutAt goodCaps (freshBV fe) base).1.symbols ∧
    (applyLayoutAt goodCaps (applyLayoutAt goodCaps (freshBV fe) base).1 base).1.comments =
      (applyLayoutAt goodCaps (freshBV fe) base).1.comments ∧
    (applyLayoutAt goodCaps (applyLayoutAt goodCaps (freshBV fe) base).1 base).1.registry =
      (applyLayoutAt goodCaps (freshBV fe) base).1.registry ∧
    errorCount
        (applyLayoutAt goodCaps (applyLayoutAt goodCaps (freshBV fe) base).1 base).1 =
      errorCount (applyLayoutAt goodCaps (freshBV fe) base).1 := by
  rw [applyLayoutAt_fresh, applyLayoutAt_again]
  exact ⟨rfl, applyModel_idem_dataVars _ _, applyModel_idem_symbols _ _,
    applyModel_idem_comments _ _, applyModel_registry _ _, errorCount_applyModel _ _⟩

end AmdZen
